import Mathlib

/-!
Shallow embedding of `core.py` from the `genetic_algorithm` repository.

Modelling conventions:
* Python/NumPy real numbers (fitness values, probabilities, uniform samples)
  are modelled exactly as rationals (`ℚ`); the claims settled here do not
  depend on floating-point rounding.
* Gene values are a type parameter `α` with decidable equality.
* Randomness is made explicit: every NumPy draw that a function performs
  becomes an argument (a list of uniform samples in `[0,1)`, a choice
  function for `np.random.choice`, a coin for two-element choices).
* A Python object's `__dict__` is modelled as an insertion-ordered
  association list.  For an `Organism` built by `Organism.__init__` the
  insertion order is: the genome entries, then the `genus` attribute
  (line 53 sets the genome keys, line 54 sets `self.genus`).
* Python object identity (the default `!=` used on `Genus` instances at
  line 60) is modelled by an `id : Nat` field on `Genus`.
* Functions that can raise return `Option`/`Except`; total NumPy indexing
  (`pop[idx]`) is modelled with `List.getD` and an explicit default, and the
  theorems keep every index in range.
* Note: line 170 of the source reads `org.__dict__for org in pop`; the
  missing space is a lexical slip (the file does not tokenize as written).
  The evident reading `org.__dict__ for org in pop` is embedded: the cache
  is built from `pop`, the population in its original (pre-sort) order.
-/

namespace Gen

variable {α : Type} [DecidableEq α]

/-- `Genus` (lines 28-39): `self.__dict__` maps gene names to admissible
value domains; `id` models Python object identity, since `Genus` defines no
`__eq__` and line 60 compares genus references by identity. -/
structure Genus (α : Type) where
  id : Nat
  genes : List (String × List α)
deriving DecidableEq

/-- The gene names of a genus, in `__dict__` insertion order. -/
def Genus.names (g : Genus α) : List String :=
  g.genes.map Prod.fst

/-- `genus.__dict__[key]` as a partial lookup (a missing key is `none`,
modelling Python's `KeyError`). -/
def Genus.domain (g : Genus α) (k : String) : Option (List α) :=
  g.genes.lookup k

/-- An `Organism` (lines 41-54): its `__dict__` holds the genome entries and
then the `genus` reference. -/
structure Organism (α : Type) where
  genome : List (String × α)
  genus : Genus α
deriving DecidableEq

/-- `self.__dict__.keys()` for an organism: the genome keys followed by the
`genus` attribute (set last in `__init__`). -/
def Organism.attrKeys (o : Organism α) : List String :=
  o.genome.map Prod.fst ++ ["genus"]

/-- Lines 48-49 of `Organism.__init__`: keep exactly the input entries whose
key is a gene name of the genus and whose value lies in that gene's domain. -/
def initFilter (g : Genus α) (input : List (String × α)) : List (String × α) :=
  input.filter fun kv =>
    match g.domain kv.1 with
    | some dom => decide (kv.2 ∈ dom)
    | none => false

/-- Line 50: `genus.__dict__.keys() - genome.keys()`.  Python's set
difference is unordered; it is modelled here in genus key order, and every
statement about the result is up to permutation. -/
def initMissing (g : Genus α) (kept : List (String × α)) : List String :=
  g.names.filter fun k => (kept.lookup k).isNone

/-- `Organism.__init__` (lines 44-54): filter the input genome against the
genus schema, then fill each missing gene with a random draw from its domain
(`draws` supplies the `np.random.choice` results).  No code path raises. -/
def organismInit (g : Genus α) (input : List (String × α))
    (draws : String → α) : Organism α :=
  let kept := initFilter g input
  ⟨kept ++ (initMissing g kept).map (fun k => (k, draws k)), g⟩

/-- The mutation threshold `np.divide(1, keys.size)` (line 75). -/
def mutThreshold (n : Nat) : ℚ :=
  1 / n

/-- `Organism.mutate` (lines 71-79).  `rs` is `np.random.random(keys.size)`,
one uniform sample per `__dict__` attribute (the genes and then `genus`);
an attribute is selected when its sample is below `1/keys.size`.  `draws k`
is the `np.random.choice(self.genus.__dict__[k])` result for a selected
attribute `k`; if a selected attribute is not a key of the genus `__dict__`
(notably `genus` itself), the comprehension at lines 76-77 raises `KeyError`,
modelled by `none`.  (The degenerate corner in which a gene is literally
named `genus` is outside this model; every theorem below assumes no gene is
named `genus`.) -/
def Organism.mutate (o : Organism α) (rs : List ℚ) (draws : String → α) :
    Option (Organism α) :=
  let keys := o.attrKeys
  let sel := ((keys.zip rs).filter fun kr =>
    decide (kr.2 < mutThreshold keys.length)).map Prod.fst
  if sel.all fun k => (o.genus.domain k).isSome then
    some ⟨o.genome.map fun kv =>
      if sel.contains kv.1 then (kv.1, draws kv.1) else kv, o.genus⟩
  else
    none

/-- The ways `Organism.breed` can raise. -/
inductive BreedError where
  /-- Line 61: `Exception("Only organisms of the same genus can breed.")`. -/
  | incompatibleGenus : BreedError
  /-- `other.__dict__[key]` at line 65 raises `KeyError`. -/
  | missingKey : BreedError
  /-- Line 69: `Organism(self.genus, **child_genome)` receives `genus` both
  positionally and as a keyword (the comprehension at lines 64-67 runs over
  all of `self.__dict__.keys()`, which contains `genus`), a `TypeError`. -/
  | multipleGenusArg : BreedError
deriving DecidableEq

/-- The keyword set of the constructor call at line 69: `child_genome` has
one entry per attribute of `self.__dict__`, including `genus`. -/
def breedChildKeys (a : Organism α) : List String :=
  a.attrKeys

/-- `Organism.breed` (lines 56-69).  `coin k = true` means
`np.random.choice([self.__dict__[k], other.__dict__[k]])` picked the first
parent's value at gene `k`; `draws` feeds the nested `Organism.__init__`
call (it draws nothing when no gene is missing). -/
def Organism.breed (a b : Organism α) (coin : String → Bool)
    (draws : String → α) : Except BreedError (Organism α) :=
  if a.genus.id ≠ b.genus.id then
    .error .incompatibleGenus
  else if ¬ ((a.genome.map Prod.fst).all fun k => (b.genome.lookup k).isSome) then
    .error .missingKey
  else
    let childGenes := a.genome.map fun kv =>
      (kv.1, if coin kv.1 then kv.2 else (b.genome.lookup kv.1).getD kv.2)
    if (breedChildKeys a).contains "genus" then
      .error .multipleGenusArg
    else
      .ok (organismInit a.genus childGenes draws)

/-- Line 143: `probs = np.divide(fitnesses, sum(fitnesses))`. -/
def probsOf (fitnesses : List ℚ) : List ℚ :=
  fitnesses.map fun f => f / fitnesses.sum

/-- Lines 147-148: `np.argsort(probs)[::-1]`, the index permutation putting
the probabilities in descending order.  NumPy's quicksort leaves the order
of ties unspecified; a deterministic insertion sort models it, and no
theorem below depends on the tie order. -/
def sortedIdx (probs : List ℚ) : List Nat :=
  List.insertionSort (fun i j => probs.getD j 0 ≤ probs.getD i 0)
    (List.range probs.length)

/-- One step of the fold at lines 163-165: the state is a pair
`(index count, accumulated probability)` and each element contributes
`(1, p)`. -/
def selectStep (u : ℚ) (x y : Nat × ℚ) : Nat × ℚ :=
  if x.2 + y.2 > u then (x.1, x.2 + y.2) else (x.1 + y.1, x.2 + y.2)

/-- Lines 160-167: `reduce(fn, map(lambda x: (1, x), probs))` followed by
`indices[i] = idx - 1`.  `functools.reduce` with no initialiser seeds the
fold with the first element (and raises on an empty sequence; empty
populations are outside the model, `0` stands in). -/
def selectIdx (probs : List ℚ) (u : ℚ) : Nat :=
  match probs.map (fun p => ((1 : Nat), p)) with
  | [] => 0
  | x :: t => (t.foldl (selectStep u) x).1 - 1

/-- The `cache` dictionary built at lines 169-172. -/
structure FitCache (α : Type) where
  genomes : List (List (String × α))
  fitnesses : List ℚ
deriving DecidableEq

/-- Everything `get_fit_organisms` produces: the returned fit subset, the
reassigned `self.population` (line 149, a side effect on the object), and
the cache. -/
structure FitResult (α : Type) where
  chosen : List (Organism α)
  newPopulation : List (Organism α)
  cache : FitCache α
deriving DecidableEq

/-- `Population.get_fit_organisms` (lines 99-175) after the fitness
computation: `pop` is `self.population` on entry, `fitnesses` the values the
evaluator produced for it (index-aligned), and `us = np.random.rand(amount)`
the uniform samples of line 152.  The multiprocessing/progress-bar plumbing
of lines 116-140 only fills `fitnesses` and is external to the model. -/
def getFitOrganisms (pop : List (Organism α)) (fitnesses : List ℚ)
    (us : List ℚ) (dflt : Organism α) : FitResult α :=
  let probs := probsOf fitnesses
  let sidx := sortedIdx probs
  let sortedProbs := sidx.map (probs.getD · 0)
  let newPop := sidx.map fun i => pop.getD i dflt
  { chosen := us.map fun u => newPop.getD (selectIdx sortedProbs u) dflt
    newPopulation := newPop
    cache := ⟨pop.map Organism.genome, fitnesses⟩ }

/-- Python's `max` on a list: seeded fold over a nonempty list, an error
(`none`) on an empty one (line 259 applies it to `fitnesses`). -/
def pyMax : List ℚ → Option ℚ
  | [] => none
  | x :: t => some (t.foldl max x)

/-- `np.argmax(fitnesses)` (line 260): the first index attaining the
maximum `m`. -/
def argmaxIdx (l : List ℚ) (m : ℚ) : Nat :=
  l.findIdx fun x => decide (x = m)

/-- `History` (lines 237-263): the per-generation ledgers and the running
best, initialised at lines 241-243 to `{'genome': None, 'fitness': 0}`. -/
structure History (α : Type) where
  genomeHistory : List (List (List (String × α)))
  fitnessHistory : List (List ℚ)
  fittestGenome : Option (List (String × α))
  fittestFitness : ℚ
deriving DecidableEq

/-- `History.__init__` (lines 240-243). -/
def History.init : History α :=
  ⟨[], [], none, 0⟩

/-- `History.add_entry` (lines 245-263): append the raw generation data and
update the running best when the entry's maximum strictly exceeds it.
`max([])` raises, hence the `Option`. -/
def History.addEntry (h : History α) (cache : FitCache α) :
    Option (History α) :=
  match pyMax cache.fitnesses with
  | none => none
  | some m =>
    some { genomeHistory := h.genomeHistory ++ [cache.genomes]
           fitnessHistory := h.fitnessHistory ++ [cache.fitnesses]
           fittestGenome :=
             if m > h.fittestFitness then
               some (cache.genomes.getD (argmaxIdx cache.fitnesses m) [])
             else h.fittestGenome
           fittestFitness :=
             if m > h.fittestFitness then m else h.fittestFitness }

/-- A sequence of `add_entry` calls starting from a fresh `History`
(the shape of the per-generation recording in `evolve`). -/
def runHistory (entries : List (FitCache α)) : Option (History α) :=
  entries.foldlM (fun h e => h.addEntry e) History.init

/-- The state a `Population` object carries across `evolve` iterations
(lines 84-97): the genus and target size are read-only there; the current
generation is replaced each iteration. -/
structure PopState (α : Type) where
  genus : Genus α
  size : Nat
  population : List (Organism α)
deriving DecidableEq

/-- The ways one `evolve` iteration can raise. -/
inductive EvolveError where
  /-- `max` of an empty fitness list inside `History.add_entry`. -/
  | historyEmptyMax : EvolveError
  /-- An exception escaping `Organism.breed` (line 220). -/
  | breedFailed (e : BreedError) : EvolveError
  /-- `KeyError` escaping `Organism.mutate` (line 226). -/
  | mutateKeyError : EvolveError
deriving DecidableEq

/-- The random draws one `evolve` iteration consumes. -/
structure GenRand (α : Type) where
  /-- Line 152 inside `get_fit_organisms`. -/
  selectUs : List ℚ
  /-- Line 219: `np.random.choice(fit_organisms, (size, 2))`, as index
  pairs into the selected breeders. -/
  parentPicks : List (Nat × Nat)
  /-- The per-child, per-gene parent choices inside `breed`. -/
  breedCoins : Nat → String → Bool
  /-- Draws for the nested constructor call inside `breed`. -/
  breedDraws : Nat → String → α
  /-- Line 224: `np.random.random(self.size)`. -/
  mutateCoins : List ℚ
  /-- Per-child samples for `mutate`. -/
  mutateRs : Nat → List ℚ
  /-- Per-child domain draws for `mutate`. -/
  mutateDraws : Nat → String → α
deriving Inhabited

/-- One iteration of the loop at lines 204-229: select breeders, record the
generation in the history, breed `size` children, gate each child through
mutation with probability `mutation_pool`, and replace the population. -/
def evolveStep (st : PopState α) (fitFn : Organism α → ℚ)
    (breedingPool mutationPool : ℚ) (r : GenRand α) (dflt : Organism α)
    (h : History α) : Except EvolveError (History α × PopState α) := do
  let breeders := max 2 (Nat.ceil ((st.size : ℚ) * breedingPool))
  let fits := st.population.map fitFn
  let res := getFitOrganisms st.population fits (r.selectUs.take breeders) dflt
  let h ← match h.addEntry res.cache with
    | none => Except.error .historyEmptyMax
    | some h2 => Except.ok h2
  let children ← (List.range st.size).mapM fun i =>
    let pk := r.parentPicks.getD i (0, 0)
    match (res.chosen.getD pk.1 dflt).breed (res.chosen.getD pk.2 dflt)
        (r.breedCoins i) (r.breedDraws i) with
    | .error e => Except.error (EvolveError.breedFailed e)
    | .ok c => Except.ok c
  let children ← children.enum.mapM fun ic =>
    if r.mutateCoins.getD ic.1 1 < mutationPool then
      match ic.2.mutate (r.mutateRs ic.1) (r.mutateDraws ic.1) with
      | none => Except.error EvolveError.mutateKeyError
      | some c => Except.ok c
    else
      Except.ok ic.2
  .ok (h, { st with population := children })

/-- The loop of `Population.evolve`, one recursive call per generation. -/
def evolveLoop (fitFn : Organism α → ℚ) (breedingPool mutationPool : ℚ)
    (rnd : Nat → GenRand α) (dflt : Organism α) :
    Nat → Nat → History α → PopState α →
    Except EvolveError (History α × PopState α)
  | _, 0, h, st => .ok (h, st)
  | g, n + 1, h, st => do
    let r ← evolveStep st fitFn breedingPool mutationPool (rnd g) dflt h
    evolveLoop fitFn breedingPool mutationPool rnd dflt (g + 1) n r.1 r.2

/-- `Population.evolve` (lines 177-235): build a fresh `History` (line 195),
run the generational loop, return the history (and the final population
state, which the Python method mutates in place). -/
def evolve (st : PopState α) (fitFn : Organism α → ℚ)
    (breedingPool mutationPool : ℚ) (rnd : Nat → GenRand α)
    (dflt : Organism α) (generations : Nat) :
    Except EvolveError (History α × PopState α) :=
  evolveLoop fitFn breedingPool mutationPool rnd dflt 0 generations
    History.init st

/-! ### Definitions transcribed from the specification's wording

These follow the spec/claim text, not the source; they exist only to be
compared against the source-derived definitions above. -/

/-- Spec wording of the selection step: walk the (descending-sorted)
cumulative-probability sequence and return the first index whose cumulative
probability strictly exceeds `u`. -/
def specSelectAux : List ℚ → ℚ → ℚ → Nat
  | [], _, _ => 0
  | p :: rest, acc, u =>
    if acc + p > u then 0 else specSelectAux rest (acc + p) u + 1

/-- Spec wording: the first index of `probs` whose cumulative sum strictly
exceeds `u`. -/
def specSelectIdx (probs : List ℚ) (u : ℚ) : Nat :=
  specSelectAux probs 0 u

/-- Spec wording of the claimed reorder: the index permutation putting the
population in descending-fitness order. -/
def specDescFitIdx (fitnesses : List ℚ) : List Nat :=
  List.insertionSort (fun i j => fitnesses.getD j 0 ≤ fitnesses.getD i 0)
    (List.range fitnesses.length)

/-- Spec wording of mutation: independently per gene, with the caller-given
probability `p`, replace the value with a fresh draw from that gene's
domain (`rs` holds one uniform sample per gene). -/
def specMutate (p : ℚ) (o : Organism α) (rs : List ℚ)
    (draws : String → α) : Organism α :=
  ⟨(o.genome.zip rs).map fun kvr =>
    if kvr.2 < p then (kvr.1.1, draws kvr.1.1) else kvr.1, o.genus⟩

/-! ### Concrete instances used by the closed theorems and witnesses -/

/-- A one-gene genus: `x ∈ {1, 2}`. -/
def exGenus : Genus Nat := ⟨0, [("x", [1, 2])]⟩

/-- A structurally identical genus that is a different instance. -/
def exGenusB : Genus Nat := ⟨1, [("x", [1, 2])]⟩

/-- An organism of `exGenus` with `x = 1`. -/
def orgX1 : Organism Nat := ⟨[("x", 1)], exGenus⟩

/-- An organism of `exGenus` with `x = 2`. -/
def orgX2 : Organism Nat := ⟨[("x", 2)], exGenus⟩

/-- An organism of the second genus instance. -/
def orgOther : Organism Nat := ⟨[("x", 1)], exGenusB⟩

/-! ### Claim theorems -/

/-- C1: with fitnesses `[3, 1]` (sorted probabilities `[3/4, 1/4]`) and
uniform sample `u = 4/5`, the first sorted index whose cumulative
probability strictly exceeds `u` is `1`, but the code's fold returns sorted
index `0` and `get_fit_organisms` hands back the fitness-3 organism instead
of the fitness-1 organism: the `reduce` seeds itself with the first
cumulative sum without ever testing it against `u`, so it returns the index
just before the first strict-exceed position. -/
theorem select_off_by_one_concrete :
    specSelectIdx [3/4, 1/4] (4/5) = 1 ∧
    selectIdx [3/4, 1/4] (4/5) = 0 ∧
    (getFitOrganisms [orgX1, orgX2] [3, 1] [4/5] orgX1).chosen = [orgX1] ∧
    (getFitOrganisms [orgX1, orgX2] [3, 1] [4/5] orgX1).newPopulation.getD
      (specSelectIdx [3/4, 1/4] (4/5)) orgX1 = orgX2 ∧
    orgX1 ≠ orgX2 := by
  refine ⟨?_, ?_, ?_, ?_, by decide⟩
  · norm_num [specSelectIdx, specSelectAux]
  · norm_num [selectIdx, selectStep]
  · norm_num [getFitOrganisms, probsOf, sortedIdx, selectIdx, selectStep,
      List.range_succ]
  · norm_num [getFitOrganisms, probsOf, sortedIdx, specSelectIdx,
      specSelectAux, List.range_succ]

/-- C2: with fitness values `[-1, -1]` the sum is `-2 ≤ 0`, yet
`get_fit_organisms` raises nothing: line 143 normalizes by the raw sum
(yielding probabilities `[1/2, 1/2]` here) and selection proceeds to return
an organism.  No `InvalidFitnessError` (or any validation) exists in the
code. -/
theorem nonpositive_fitness_sum_still_selects :
    probsOf [-1, -1] = [1/2, 1/2] ∧
    (getFitOrganisms [orgX1, orgX2] [-1, -1] [1/4] orgX1).chosen =
      [orgX1] := by
  refine ⟨by norm_num [probsOf], ?_⟩
  norm_num [getFitOrganisms, probsOf, sortedIdx, selectIdx, selectStep,
    List.range_succ]

/-- C3 counterexample: constructing an organism from genome `{x: 5}` with
`5` outside the domain `{1, 2}` does not fail; lines 48-51 silently drop
the invalid entry and fill `x` with a random draw (here `2`). -/
theorem invalid_genome_constructs_without_error :
    organismInit exGenus [("x", 5)] (fun _ => 2) =
      ⟨[("x", 2)], exGenus⟩ := by
  decide

/-- C4 counterexample: after recording a single generation whose only
fitness is `-5`, the running best still reports the initial `fitness 0`
with genome `None` (lines 243 and 259 compare against the hard-coded `0`),
so `History.fittest` does not equal the true maximum `-5`. -/
theorem history_fittest_ignores_negative_max :
    History.addEntry History.init ⟨[[("x", (1 : Nat))]], [-5]⟩ =
      some ⟨[[[("x", 1)]]], [[-5]], none, 0⟩ ∧
    pyMax [-5] = some (-5) ∧
    ((-5 : ℚ) ≠ 0) := by
  refine ⟨?_, by norm_num [pyMax], by norm_num⟩
  norm_num [History.addEntry, History.init, pyMax, argmaxIdx]

/-- C5 counterexample: `mutate` has no per-gene probability parameter.  For
the one-gene organism `orgX1` the code's threshold is `1/(1+1) = 1/2`
(line 75 divides by the attribute count, genes plus the `genus` reference),
so with samples `[6/10, 9/10]` nothing mutates; the claim's per-gene rule
with `p = 7/10` would have replaced the gene (sample `6/10 < 7/10`) with
the fresh draw `2`, a different organism. -/
theorem mutate_has_no_probability_parameter :
    Organism.mutate orgX1 [6/10, 9/10] (fun _ => 2) = some orgX1 ∧
    specMutate (7/10) orgX1 [6/10] (fun _ => 2) = ⟨[("x", 2)], exGenus⟩ ∧
    (⟨[("x", 2)], exGenus⟩ : Organism Nat) ≠ orgX1 := by
  refine ⟨?_, ?_, by decide⟩
  · norm_num [Organism.mutate, Organism.attrKeys, mutThreshold, orgX1,
      exGenus, Genus.domain]
  · norm_num [specMutate, orgX1]

/-- C10 counterexample: with fitnesses `[1, -3]` the sum is `-2`, the
normalized "probabilities" are `[-1/2, 3/2]`, and sorting them descending
(lines 147-149) puts the fitness `-3` organism first: the population is
permanently reordered, but not into descending-fitness order.  The cache
still pairs the genomes with the fitnesses in original order. -/
theorem getFit_reorder_not_descending_fitness :
    (getFitOrganisms [orgX1, orgX2] [1, -3] [] orgX1).newPopulation =
      [orgX2, orgX1] ∧
    sortedIdx (probsOf [1, -3]) = [1, 0] ∧
    specDescFitIdx [1, -3] = [0, 1] ∧
    (getFitOrganisms [orgX1, orgX2] [1, -3] [] orgX1).cache =
      ⟨[[("x", 1)], [("x", 2)]], [1, -3]⟩ ∧
    ([orgX2, orgX1] : List (Organism Nat)) ≠ [orgX1, orgX2] := by
  refine ⟨?_, ?_, ?_, ?_, by decide⟩
  · norm_num [getFitOrganisms, probsOf, sortedIdx, List.range_succ]
  · norm_num [sortedIdx, probsOf, List.range_succ]
  · norm_num [specDescFitIdx, List.range_succ]
  · norm_num [getFitOrganisms, Organism.genome, orgX1, orgX2]

omit [DecidableEq α] in
/-- The `__dict__` of an organism always has one attribute more than its
genome: the `genus` reference. -/
theorem attrKeys_length (o : Organism α) :
    o.attrKeys.length = o.genome.length + 1 := by
  simp [Organism.attrKeys]

omit [DecidableEq α] in
/-- Splitting the attribute/sample zip of `mutate` into the gene part and
the `genus` part. -/
theorem mutate_zip_split (o : Organism α) (rgenes : List ℚ) (rgenus : ℚ)
    (hlen : rgenes.length = o.genome.length) :
    o.attrKeys.zip (rgenes ++ [rgenus]) =
      ((o.genome.map Prod.fst).zip rgenes) ++ [("genus", rgenus)] := by
  unfold Organism.attrKeys
  rw [List.zip_append (by simp [hlen])]
  rfl

omit [DecidableEq α] in
/-- The selected attribute set of `mutate`: the genes whose sample is under
the threshold, plus `genus` when its sample is. -/
theorem mutate_sel_eq (o : Organism α) (rgenes : List ℚ) (rgenus : ℚ)
    (hlen : rgenes.length = o.genome.length) :
    ((o.attrKeys.zip (rgenes ++ [rgenus])).filter fun kr =>
        decide (kr.2 < mutThreshold o.attrKeys.length)).map Prod.fst =
      ((((o.genome.map Prod.fst).zip rgenes).filter fun kr =>
        decide (kr.2 < mutThreshold (o.genome.length + 1))).map Prod.fst) ++
      (if rgenus < mutThreshold (o.genome.length + 1) then ["genus"]
       else []) := by
  rw [mutate_zip_split o rgenes rgenus hlen, List.filter_append,
    List.map_append, attrKeys_length]
  by_cases h : rgenus < mutThreshold (o.genome.length + 1) <;> simp [h]

omit [DecidableEq α] in
/-- C9: `mutate`'s coin flip ranges over all `g + 1` instance attributes —
the `g` genes and the `genus` reference (each with threshold `1/(g+1)`,
line 75) — and when the `genus` attribute is selected (its uniform sample
falls below the threshold), the domain lookup `self.genus.__dict__['genus']`
at line 76 fails and `mutate` raises instead of returning an organism. -/
theorem mutate_coinflips_genus_attribute (o : Organism α) (rgenes : List ℚ)
    (rgenus : ℚ) (draws : String → α)
    (hlen : rgenes.length = o.genome.length)
    (hdom : o.genus.domain "genus" = none)
    (hsel : rgenus < mutThreshold (o.genome.length + 1)) :
    o.attrKeys.length = o.genome.length + 1 ∧
    o.mutate (rgenes ++ [rgenus]) draws = none := by
  refine ⟨attrKeys_length o, ?_⟩
  simp only [Organism.mutate]
  rw [mutate_sel_eq o rgenes rgenus hlen, if_pos hsel]
  simp [hdom]

/-- C9 witness: a one-gene organism whose `genus` sample `1/10` is below
the threshold `1/2`; `mutate` fails. -/
theorem mutate_coinflips_genus_attribute_witness :
    orgX1.attrKeys.length = orgX1.genome.length + 1 ∧
    Organism.mutate orgX1 [9/10, 1/10] (fun _ => 2) = none :=
  mutate_coinflips_genus_attribute orgX1 [9/10] (1/10) (fun _ => 2)
    (by simp [orgX1]) (by decide) (by norm_num [mutThreshold, orgX1])

omit [DecidableEq α] in
/-- C5 (amended): `mutate` consults no caller-supplied probability; each
attribute is selected when its own uniform sample is below `1/(g+1)`
(`g` genes plus the `genus` reference), and — when the `genus` attribute is
not selected — every selected gene's value is replaced by a fresh draw from
its domain (possibly equal to the old value) while unselected genes are
untouched.  There is no cached fitness on the organism to reset. -/
theorem mutate_uses_inverse_attr_count (o : Organism α) (rgenes : List ℚ)
    (rgenus : ℚ) (draws : String → α)
    (hlen : rgenes.length = o.genome.length)
    (hnd : (o.genome.map Prod.fst).Nodup)
    (hgenes : ∀ k ∈ o.genome.map Prod.fst, (o.genus.domain k).isSome)
    (hns : ¬ rgenus < mutThreshold (o.genome.length + 1)) :
    o.mutate (rgenes ++ [rgenus]) draws =
      some ⟨(o.genome.zip rgenes).map fun kvr =>
        if kvr.2 < mutThreshold (o.genome.length + 1)
        then (kvr.1.1, draws kvr.1.1) else kvr.1, o.genus⟩ := by
  simp only [Organism.mutate]
  rw [mutate_sel_eq o rgenes rgenus hlen, if_neg hns, List.append_nil]
  have hkeys : ((o.genome.map Prod.fst).zip rgenes).map Prod.fst =
      o.genome.map Prod.fst :=
    List.map_fst_zip _ _ (by simp [hlen])
  have hsub : ∀ k, k ∈ ((((o.genome.map Prod.fst).zip rgenes).filter
      fun kr => decide (kr.2 < mutThreshold (o.genome.length + 1))).map
        Prod.fst) → k ∈ o.genome.map Prod.fst := by
    intro k hk
    obtain ⟨kr, hkr, rfl⟩ := List.mem_map.1 hk
    rw [← hkeys]
    exact List.mem_map_of_mem _ (List.mem_filter.1 hkr).1
  rw [if_pos ?_]
  · apply congrArg some
    apply congrArg (fun g => Organism.mk g o.genus)
    apply List.ext_getElem
    · simp [hlen]
    · intro i h1 h2
      have hi : i < o.genome.length := by simpa using h1
      have hri : i < rgenes.length := by omega
      have hzl : ((o.genome.map Prod.fst).zip rgenes).length =
          o.genome.length := by
        simp [hlen]
      have hzi : i < ((o.genome.map Prod.fst).zip rgenes).length := by
        omega
      simp only [List.getElem_map, List.getElem_zip]
      have hmem : ((o.genome.map Prod.fst).zip rgenes)[i] =
          (o.genome[i].1, rgenes[i]) := by
        simp [List.getElem_zip]
      by_cases hlt : rgenes[i] < mutThreshold (o.genome.length + 1)
      · rw [if_pos hlt, if_pos]
        have hin : (o.genome[i].1, rgenes[i]) ∈
            (((o.genome.map Prod.fst).zip rgenes).filter
              fun kr =>
                decide (kr.2 < mutThreshold (o.genome.length + 1))) := by
          rw [List.mem_filter]
          refine ⟨?_, by simpa using hlt⟩
          rw [← hmem]
          exact List.getElem_mem hzi
        simpa [List.contains, List.elem_iff] using
          List.mem_map_of_mem Prod.fst hin
      · rw [if_neg hlt, if_neg]
        intro hcon
        have hmm : o.genome[i].1 ∈ (((o.genome.map Prod.fst).zip
            rgenes).filter fun kr =>
              decide (kr.2 < mutThreshold (o.genome.length + 1))).map
                Prod.fst := by
          simpa [List.contains, List.elem_iff] using hcon
        obtain ⟨kr, hkr, hfst⟩ := List.mem_map.1 hmm
        have hkrz := List.mem_filter.1 hkr
        obtain ⟨j, hj, hjz⟩ := List.mem_iff_getElem.1 hkrz.1
        have hjlen : j < o.genome.length := by omega
        have hjr : j < rgenes.length := by omega
        have hjm : j < (o.genome.map Prod.fst).length := by
          simpa using hjlen
        have hjval : kr = ((o.genome.map Prod.fst)[j], rgenes[j]) := by
          rw [← hjz]
          simp [List.getElem_zip]
        have him : i < (o.genome.map Prod.fst).length := by
          simpa using hi
        have hkeq : (o.genome.map Prod.fst)[j] =
            (o.genome.map Prod.fst)[i] := by
          simp only [hjval] at hfst
          simpa using hfst
        have hij : j = i := (List.Nodup.getElem_inj_iff hnd).1 hkeq
        have hjlt : rgenes[j] < mutThreshold (o.genome.length + 1) := by
          have h2f := hkrz.2
          simp only [hjval] at h2f
          simpa using h2f
        subst hij
        exact hlt hjlt
  · rw [List.all_eq_true]
    intro k hk
    exact hgenes k (hsub k hk)

/-- C5 amended witness: a one-gene organism, gene sample `1/10 < 1/2`
(selected, replaced by the fresh draw `2`), `genus` sample `9/10`
(not selected). -/
theorem mutate_uses_inverse_attr_count_witness :
    Organism.mutate orgX1 [1/10, 9/10] (fun _ => 2) =
      some ⟨(orgX1.genome.zip [1/10]).map fun kvr =>
        if kvr.2 < mutThreshold (orgX1.genome.length + 1)
        then (kvr.1.1, (fun _ => (2 : Nat)) kvr.1.1) else kvr.1,
        orgX1.genus⟩ :=
  mutate_uses_inverse_attr_count orgX1 [1/10] (9/10) (fun _ => 2)
    (by simp [orgX1]) (by decide) (by decide)
    (by norm_num [mutThreshold, orgX1])

/-- C6: `breed` can never return a child.  When the genus guard at line 60
passes, the comprehension at lines 64-67 copies every attribute of
`self.__dict__` — including `genus` — into `child_genome`, and the call
`Organism(self.genus, **child_genome)` at line 69 therefore passes `genus`
both positionally and as a keyword, raising `TypeError`. -/
theorem breed_never_returns_child (a b : Organism α)
    (coin : String → Bool) (draws : String → α) (c : Organism α) :
    a.breed b coin draws ≠ Except.ok c := by
  intro h
  unfold Organism.breed at h
  split at h
  · exact Except.noConfusion h
  · split at h
    · exact Except.noConfusion h
    · rw [if_pos (by simp [breedChildKeys, Organism.attrKeys,
        List.contains, List.elem_iff])] at h
      exact Except.noConfusion h

/-- C6 witness: the concrete same-genus pair cannot produce this child (or
any other). -/
theorem breed_never_returns_child_witness :
    orgX1.breed orgX2 (fun _ => true) (fun _ => 1) ≠ Except.ok orgX2 :=
  breed_never_returns_child orgX1 orgX2 (fun _ => true) (fun _ => 1) orgX2

/-- C7: the genus guard does raise on organisms with different `Genus`
instances (line 61's generic `Exception`, the only incompatibility error in
the code — no `IncompatibleGenusError` class exists), but breeding does not
succeed for organisms sharing the instance either: the concrete same-genus
pair `orgX1`, `orgX2` ends in the `TypeError` of line 69. -/
theorem breed_same_instance_still_fails :
    (∀ (a b : Organism α) (coin : String → Bool) (draws : String → α),
      a.genus.id ≠ b.genus.id →
      a.breed b coin draws = .error .incompatibleGenus) ∧
    orgX1.breed orgX2 (fun _ => true) (fun _ => 1) =
      .error .multipleGenusArg := by
  constructor
  · intro a b coin draws hne
    unfold Organism.breed
    rw [if_pos hne]
  · rfl

/-- C7 witness: the guard fires on the distinct-instance pair, and the
same-instance pair still fails with the `TypeError`. -/
theorem breed_same_instance_still_fails_witness :
    orgOther.breed orgX1 (fun _ => true) (fun _ => 1) =
      .error .incompatibleGenus ∧
    orgX1.breed orgX2 (fun _ => true) (fun _ => 1) =
      .error .multipleGenusArg :=
  ⟨(breed_same_instance_still_fails (α := Nat)).1 orgOther orgX1 _ _
      (by decide),
    (breed_same_instance_still_fails (α := Nat)).2⟩

/-- C8: evolving for zero generations returns the freshly initialised
history (no entries, running best `(None, 0)`) and leaves the population
state — genus, size and generation sequence — untouched: the loop body at
lines 204-229 never runs. -/
theorem evolve_zero_generations_identity (st : PopState α)
    (fitFn : Organism α → ℚ) (breedingPool mutationPool : ℚ)
    (rnd : Nat → GenRand α) (dflt : Organism α) :
    evolve st fitFn breedingPool mutationPool rnd dflt 0 =
      .ok (⟨[], [], none, 0⟩, st) := by
  rfl

/-- C8 witness: a concrete one-organism population evolved for zero
generations. -/
theorem evolve_zero_generations_identity_witness :
    evolve ⟨exGenus, 1, [orgX1]⟩ (fun _ => 1) (1/5) (1/5)
      (fun _ => default) orgX1 0 =
      .ok (⟨[], [], none, 0⟩, ⟨exGenus, 1, [orgX1]⟩) :=
  evolve_zero_generations_identity ⟨exGenus, 1, [orgX1]⟩ (fun _ => 1)
    (1/5) (1/5) (fun _ => default) orgX1

omit [DecidableEq α] in
/-- Key membership in an association list is lookup success. -/
theorem mem_map_fst_iff_lookup (k : String) (l : List (String × α)) :
    k ∈ l.map Prod.fst ↔ (l.lookup k).isSome := by
  rw [List.lookup_isSome_iff]
  constructor
  · intro hk
    obtain ⟨p, hp, rfl⟩ := List.mem_map.1 hk
    exact ⟨p, hp, by simp⟩
  · rintro ⟨p, hp, hb⟩
    have : k = p.1 := by simpa using hb
    subst this
    exact List.mem_map_of_mem _ hp

/-- Entries surviving the `Organism.__init__` filter satisfy the schema. -/
theorem initFilter_valid (g : Genus α) (input : List (String × α))
    (kv : String × α) (hkv : kv ∈ initFilter g input) :
    ∃ dom, g.domain kv.1 = some dom ∧ kv.2 ∈ dom := by
  have hp := (List.mem_filter.1 hkv).2
  cases hdom : g.domain kv.1 with
  | none => rw [hdom] at hp; simp at hp
  | some dom =>
    rw [hdom] at hp
    exact ⟨dom, rfl, by simpa using hp⟩

/-- C3 (amended): constructing an organism never fails.  Input entries with
an unknown key or an out-of-domain value are silently dropped (lines 48-49)
and every gene left unassigned is filled with a random draw from its domain
(lines 50-51), so — whenever the draws are in-domain — the resulting genome
has exactly the genus's gene names (up to ordering of Python's unordered
set difference) and every value lies in its gene's domain.  No
`ValidationError` exists in the code. -/
theorem organismInit_filters_and_fills (g : Genus α)
    (input : List (String × α)) (draws : String → α)
    (hg : g.names.Nodup)
    (hi : (input.map Prod.fst).Nodup)
    (hd : ∀ k ∈ g.names, ∃ dom, g.domain k = some dom ∧ draws k ∈ dom) :
    ((organismInit g input draws).genome.map Prod.fst).Perm g.names ∧
    ∀ kv ∈ (organismInit g input draws).genome,
      ∃ dom, g.domain kv.1 = some dom ∧ kv.2 ∈ dom := by
  constructor
  · have hkeys : (organismInit g input draws).genome.map Prod.fst =
        (initFilter g input).map Prod.fst ++ initMissing g (initFilter g input) := by
      simp [organismInit, List.map_map, Function.comp_def]
    rw [hkeys]
    have hkn : ((initFilter g input).map Prod.fst).Nodup := by
      refine List.Nodup.sublist ?_ hi
      exact List.Sublist.map _ (List.filter_sublist _)
    have hmn : (initMissing g (initFilter g input)).Nodup :=
      List.Nodup.filter _ hg
    have hdisj : ∀ k ∈ (initFilter g input).map Prod.fst,
        k ∉ initMissing g (initFilter g input) := by
      intro k hk hm
      have h1 : ((initFilter g input).lookup k).isSome :=
        (mem_map_fst_iff_lookup k _).1 hk
      have h2 := (List.mem_filter.1 hm).2
      simp only [Option.isNone_iff_eq_none] at h2
      rw [h2] at h1
      simp at h1
    have hnd : ((initFilter g input).map Prod.fst ++
        initMissing g (initFilter g input)).Nodup := by
      rw [List.nodup_append]
      exact ⟨hkn, hmn, hdisj⟩
    refine (List.perm_ext_iff_of_nodup hnd hg).2 ?_
    intro k
    constructor
    · intro hk
      rcases List.mem_append.1 hk with hk | hk
      · obtain ⟨kv, hkv, rfl⟩ := List.mem_map.1 hk
        obtain ⟨dom, hdom, _⟩ := initFilter_valid g input kv hkv
        have : (g.genes.lookup kv.1).isSome := by
          simp [Genus.domain] at hdom
          simp [hdom]
        exact (mem_map_fst_iff_lookup kv.1 g.genes).2 this
      · exact (List.mem_filter.1 hk).1
    · intro hk
      by_cases hcase : ((initFilter g input).lookup k).isSome
      · exact List.mem_append.2 (Or.inl ((mem_map_fst_iff_lookup k _).2 hcase))
      · refine List.mem_append.2 (Or.inr ?_)
        rw [initMissing, List.mem_filter]
        have hnone : (initFilter g input).lookup k = none :=
          Option.not_isSome_iff_eq_none.1 hcase
        exact ⟨hk, by simp [hnone]⟩
  · intro kv hkv
    rcases List.mem_append.1 hkv with hkv | hkv
    · exact initFilter_valid g input kv hkv
    · obtain ⟨k, hk, rfl⟩ := List.mem_map.1 hkv
      exact hd k ((List.mem_filter.1 hk).1)

/-- C3 amended witness: genome `{x: 5}` against `x ∈ {1, 2}` with draw `2`:
construction yields a schema-conforming genome, no error. -/
theorem organismInit_filters_and_fills_witness :
    ((organismInit exGenus [("x", 5)] (fun _ => 2)).genome.map
      Prod.fst).Perm exGenus.names ∧
    ∀ kv ∈ (organismInit exGenus [("x", 5)] (fun _ => 2)).genome,
      ∃ dom, exGenus.domain kv.1 = some dom ∧ kv.2 ∈ dom :=
  organismInit_filters_and_fills exGenus [("x", 5)] (fun _ => 2)
    (by decide) (by decide)
    (by
      intro k hk
      have hx : k = "x" := by simpa [exGenus, Genus.names] using hk
      subst hx
      exact ⟨[1, 2], rfl, by decide⟩)

/-- Folding `max` commutes with a larger seed. -/
theorem foldl_max_comm (l : List ℚ) (a x : ℚ) :
    l.foldl max (max a x) = max a (l.foldl max x) := by
  induction l generalizing x with
  | nil => rfl
  | cons y t ih =>
    simp only [List.foldl_cons, max_assoc]
    exact ih (max x y)

omit [DecidableEq α] in
/-- One `add_entry` call sets the running best to the maximum of the old
best and the entry's own maximum. -/
theorem addEntry_of_ne_nil (h : History α) (c : FitCache α) (x : ℚ)
    (t : List ℚ) (hc : c.fitnesses = x :: t) :
    ∃ h2, h.addEntry c = some h2 ∧
      h2.fittestFitness = max h.fittestFitness (t.foldl max x) := by
  have hm : pyMax c.fitnesses = some (t.foldl max x) := by
    rw [hc]; rfl
  simp only [History.addEntry, hm]
  refine ⟨_, rfl, ?_⟩
  by_cases hgt : t.foldl max x > h.fittestFitness
  · simp only [if_pos hgt]
    exact (max_eq_right (le_of_lt hgt)).symm
  · simp only [if_neg hgt]
    exact (max_eq_left (not_lt.1 hgt)).symm

omit [DecidableEq α] in
/-- The running best accumulated from `h0` over a list of nonempty entries
is the fold of `max` over all their fitness values. -/
theorem runHistory_aux (entries : List (FitCache α)) (h0 : History α)
    (hne : ∀ e ∈ entries, e.fitnesses ≠ []) :
    ∃ h, entries.foldlM (fun h e => h.addEntry e) h0 = some h ∧
      h.fittestFitness =
        ((entries.map FitCache.fitnesses).flatten).foldl max
          h0.fittestFitness := by
  induction entries generalizing h0 with
  | nil => exact ⟨h0, rfl, by simp⟩
  | cons e es ih =>
    cases hc : e.fitnesses with
    | nil => exact absurd hc (hne e (by simp))
    | cons x t =>
      obtain ⟨h1, hstep, hfit⟩ := addEntry_of_ne_nil h0 e x t hc
      obtain ⟨h, hrun, hval⟩ := ih h1 (fun e2 he2 => hne e2 (by simp [he2]))
      refine ⟨h, ?_, ?_⟩
      · simp [List.foldlM_cons, hstep, hrun]
      · rw [hval, hfit]
        rw [List.map_cons, List.flatten_cons, List.foldl_append, hc,
          List.foldl_cons, foldl_max_comm t h0.fittestFitness x]

omit [DecidableEq α] in
/-- C4 (amended): across any sequence of `add_entry` calls with nonempty
fitness lists, the recorded best fitness equals the fold of `max` over `0`
and every recorded fitness — i.e. `max 0 (true maximum)`, which is the true
maximum whenever any recorded fitness is positive, but stays at the
initial `0` when all fitnesses are non-positive; it never decreases across
calls, and on a tie (entry maximum not exceeding the current best) both the
stored genome and fitness are retained (strict `>` at line 259). -/
theorem history_fittest_clamped_running_max (entries : List (FitCache α))
    (hne : ∀ e ∈ entries, e.fitnesses ≠ []) :
    (∃ h, runHistory entries = some h ∧
      h.fittestFitness =
        ((entries.map FitCache.fitnesses).flatten).foldl max 0) ∧
    (∀ (h : History α) (e : FitCache α) (h2 : History α),
      h.addEntry e = some h2 →
      h.fittestFitness ≤ h2.fittestFitness) ∧
    (∀ (h : History α) (e : FitCache α) (h2 : History α) (m : ℚ),
      h.addEntry e = some h2 → pyMax e.fitnesses = some m →
      m ≤ h.fittestFitness →
      h2.fittestGenome = h.fittestGenome ∧
      h2.fittestFitness = h.fittestFitness) := by
  refine ⟨?_, ?_, ?_⟩
  · simpa [runHistory, History.init] using runHistory_aux entries History.init hne
  · intro h e h2 hstep
    cases hm : pyMax e.fitnesses with
    | none => simp [History.addEntry, hm] at hstep
    | some m =>
      simp only [History.addEntry, hm, Option.some.injEq] at hstep
      subst hstep
      by_cases hgt : m > h.fittestFitness
      · simp only [if_pos hgt]
        exact le_of_lt hgt
      · simp only [if_neg hgt]
        exact le_rfl
  · intro h e h2 m hstep hm hle
    simp only [History.addEntry, hm, Option.some.injEq] at hstep
    subst hstep
    have hngt : ¬ m > h.fittestFitness := not_lt.2 hle
    simp [if_neg hngt]

/-- C4 amended witness: two entries with fitnesses `[2, 5]` and `[3]`; the
accumulated best is `max 0 (max 2 (max 5 3)) = 5`. -/
theorem history_fittest_clamped_running_max_witness :
    (∃ h, runHistory [⟨[[("x", (1 : Nat))]], [2, 5]⟩, ⟨[[("x", 2)]], [3]⟩] =
        some h ∧
      h.fittestFitness =
        (([⟨[[("x", (1 : Nat))]], [2, 5]⟩,
          ⟨[[("x", 2)]], [3]⟩] : List (FitCache Nat)).map
            FitCache.fitnesses).flatten.foldl max 0) ∧
    (∀ (h : History Nat) (e : FitCache Nat) (h2 : History Nat),
      h.addEntry e = some h2 →
      h.fittestFitness ≤ h2.fittestFitness) ∧
    (∀ (h : History Nat) (e : FitCache Nat) (h2 : History Nat) (m : ℚ),
      h.addEntry e = some h2 → pyMax e.fitnesses = some m →
      m ≤ h.fittestFitness →
      h2.fittestGenome = h.fittestGenome ∧
      h2.fittestFitness = h.fittestFitness) :=
  history_fittest_clamped_running_max
    [⟨[[("x", 1)]], [2, 5]⟩, ⟨[[("x", 2)]], [3]⟩]
    (by
      intro e he
      simp only [List.mem_cons, List.not_mem_nil, or_false] at he
      rcases he with rfl | rfl <;> simp)

/-- Reindexing a list by `range` of its length is the identity. -/
theorem map_getD_range (l : List β) (d : β) :
    (List.range l.length).map (fun i => l.getD i d) = l := by
  induction l with
  | nil => rfl
  | cons a t ih =>
    rw [List.length_cons, List.range_succ_eq_map, List.map_cons,
      List.map_map]
    refine congrArg (a :: ·) ?_
    have hcomp : ((fun i => (a :: t).getD i d) ∘ Nat.succ) =
        (fun i => t.getD i d) := by
      funext i
      simp [Function.comp, List.getD_cons_succ]
    rw [hcomp, ih]

/-- The normalized probability at an in-range index. -/
theorem probsOf_getD (fits : List ℚ) (i : Nat) (hi : i < fits.length) :
    (probsOf fits).getD i 0 = fits.getD i 0 / fits.sum := by
  have hip : i < (probsOf fits).length := by simpa [probsOf] using hi
  rw [List.getD_eq_getElem _ _ hip, List.getD_eq_getElem _ _ hi]
  simp [probsOf]

/-- The argsort permutation is a permutation of the index range. -/
theorem sortedIdx_perm (probs : List ℚ) :
    (sortedIdx probs).Perm (List.range probs.length) :=
  List.perm_insertionSort _ _

/-- The argsort output is pairwise descending in the probabilities. -/
theorem sortedIdx_sorted (probs : List ℚ) :
    (sortedIdx probs).Pairwise
      (fun i j => probs.getD j 0 ≤ probs.getD i 0) := by
  haveI : IsTotal Nat (fun i j => probs.getD j 0 ≤ probs.getD i 0) :=
    ⟨fun a b => le_total _ _⟩
  haveI : IsTrans Nat (fun i j => probs.getD j 0 ≤ probs.getD i 0) :=
    ⟨fun a b c hab hbc => le_trans hbc hab⟩
  exact List.sorted_insertionSort _ _

omit [DecidableEq α] in
/-- C10 (amended): every call that reaches selection reassigns
`self.population` to the original population permuted by the descending
sort of the normalized probabilities (a permanent side effect), while the
returned cache pairs the genomes with the fitnesses in the original,
pre-sort order.  When `Σfitness > 0` that order is descending-fitness
order (for a non-positive sum the division flips the comparison, see the
counterexample). -/
theorem getFit_sorts_population_caches_original (pop : List (Organism α))
    (fits us : List ℚ) (dflt : Organism α)
    (hlen : fits.length = pop.length) (hsum : 0 < fits.sum) :
    (getFitOrganisms pop fits us dflt).cache =
      ⟨pop.map Organism.genome, fits⟩ ∧
    (getFitOrganisms pop fits us dflt).newPopulation =
      (sortedIdx (probsOf fits)).map (fun i => pop.getD i dflt) ∧
    ((getFitOrganisms pop fits us dflt).newPopulation).Perm pop ∧
    ((sortedIdx (probsOf fits)).map fun i => fits.getD i 0).Sorted
      (· ≥ ·) := by
  refine ⟨rfl, rfl, ?_, ?_⟩
  · have h1 : (sortedIdx (probsOf fits)).Perm (List.range pop.length) := by
      have h2 := sortedIdx_perm (probsOf fits)
      rwa [show (probsOf fits).length = pop.length from by
        simp [probsOf, hlen]] at h2
    have h3 := h1.map (fun i => pop.getD i dflt)
    rwa [map_getD_range pop dflt] at h3
  · rw [List.Sorted, List.pairwise_map]
    have hmem : ∀ i ∈ sortedIdx (probsOf fits), i < fits.length := by
      intro i hi
      have := (sortedIdx_perm (probsOf fits)).mem_iff.1 hi
      simpa [probsOf] using List.mem_range.1 this
    refine (sortedIdx_sorted (probsOf fits)).imp_of_mem ?_
    intro i j hi hj hle
    have hpi := probsOf_getD fits i (hmem i hi)
    have hpj := probsOf_getD fits j (hmem j hj)
    rw [hpi, hpj] at hle
    exact (div_le_div_iff_of_pos_right hsum).1 hle

/-- C10 amended witness: fitnesses `[3, 1]` (positive sum `4`): the
population is reordered by the probability argsort, stays a permutation of
the original, the reordered fitnesses are descending, and the cache is in
original order. -/
theorem getFit_sorts_population_caches_original_witness :
    (getFitOrganisms [orgX1, orgX2] [3, 1] [] orgX1).cache =
      ⟨[orgX1, orgX2].map Organism.genome, [3, 1]⟩ ∧
    (getFitOrganisms [orgX1, orgX2] [3, 1] [] orgX1).newPopulation =
      (sortedIdx (probsOf [3, 1])).map
        (fun i => [orgX1, orgX2].getD i orgX1) ∧
    ((getFitOrganisms [orgX1, orgX2] [3, 1] [] orgX1).newPopulation).Perm
      [orgX1, orgX2] ∧
    ((sortedIdx (probsOf [3, 1])).map fun i => [(3 : ℚ), 1].getD i 0).Sorted
      (· ≥ ·) :=
  getFit_sorts_population_caches_original [orgX1, orgX2] [3, 1] [] orgX1
    (by simp) (by norm_num)

end Gen
